import Mathlib

/-!
Verification of the synthetic user/event/session data generator of the
data-platform repository (src/scripts/generate_sample_data.py and
src/simple_data_generator.py), against the natural-language specification.

Modelling conventions (shallow embedding):
* Timestamps are integers counting seconds; `datetime.now()` is an explicit
  parameter `now`, frozen for the duration of one generation run.
  `timedelta(days = d)` is `d * 86400`, hours are `3600`, minutes are `60`.
  ISO-string serialisation followed by re-parsing is the identity on such
  timestamps, so timestamp fields hold the integer directly.
* `datetime.date()` extraction is calendar-day flooring: `t / 86400`
  (Euclidean division, which is floor division for the positive divisor).
* The `random` module is modelled as an explicit stream of naturals
  (`Rng := Nat → Nat`) consumed one draw at a time, in the exact order the
  source performs its draws.  `random.randint(lo, hi)` maps the next draw
  into `[lo, hi]`; `random.choice(l)` picks `l[draw % l.length]`;
  `random.choices(l, weights)` consumes one draw as well (the weights only
  shape the distribution, which no claim depends on); `random.uniform` and
  `random.random()` are likewise single draws, with float values abstracted
  to integer draws over the same range (no claim inspects these values
  beyond presence of keys).
* `uuid.uuid4().hex` is an explicit stream `Nat → String` with a running
  counter, since uuid4 does not consume the `random` module state.
* JSON object values (`json.dumps` of a dict) are kept as association
  lists `List (String × MetaVal)`; no claim depends on the serialised text.
-/

set_option maxHeartbeats 1000000
set_option maxRecDepth 100000

namespace DataPlatform

/-- The `random` module state: a stream of raw draws and a position in it. -/
structure Rng where
  src : Nat → Nat
  idx : Nat

/-- Next raw draw from the stream. -/
def rngHead (g : Rng) : Nat := g.src g.idx

/-- State after consuming one draw. -/
def rngTail : Rng → Rng
  | ⟨s, i⟩ => ⟨s, i + 1⟩

/-- A concrete stream for witnesses: entries of `l`, then `0`s. -/
def streamOfList (l : List Nat) : Rng := ⟨fun n => l.getD n 0, 0⟩

/-- Stream of `uuid.uuid4().hex` values, with a running counter. -/
def UuidSrc : Type := Nat → String

/-- Model of `random.randint(lo, hi)`: a draw in `[lo, hi]` when `lo ≤ hi`. -/
def randInt (lo hi : Int) (g : Rng) : Int × Rng :=
  (lo + (rngHead g : Int) % (hi - lo + 1), rngTail g)

/-- Model of `random.choice(l)` for a nonempty constant list `l`. -/
def choice (l : List String) (g : Rng) : String × Rng :=
  (l.getD (rngHead g % l.length) "", rngTail g)

/-- Model of `random.choices(l, weights = w)[0]`: one draw; the weights only
affect the distribution, which no claim depends on. -/
def weightedChoice (l : List String) (g : Rng) : String × Rng :=
  (l.getD (rngHead g % l.length) "", rngTail g)

/-- JSON scalar values appearing in metadata maps. -/
inductive MetaVal where
  | str (s : String)
  | num (n : Int)
  | null
deriving DecidableEq, Repr

/-- A row of the `users` dataset (generate_sample_data.py lines 57-72). -/
structure User where
  user_id : String
  email : String
  created_at : Int
  updated_at : Int
  first_name : String
  last_name : String
  country : String
  timezone : String
  subscription_tier : String
  metadata : List (String × MetaVal)
deriving DecidableEq, Repr, Inhabited

/-- A row of the `events` dataset (generate_sample_data.py lines 135-146). -/
structure Event where
  event_id : String
  user_id : String
  event_type : String
  event_timestamp : Int
  session_id : String
  device_type : String
  platform : String
  app_version : String
  metadata : List (String × MetaVal)
  created_at : Int
deriving DecidableEq, Repr, Inhabited

/-- A row of the `sessions` dataset (generate_sample_data.py lines 161-173). -/
structure Session where
  session_id : String
  user_id : String
  started_at : Int
  ended_at : Option Int
  duration_seconds : Option Int
  page_views : Nat
  events_count : Nat
  device_type : String
  platform : String
  country : Option String
  metadata : List (String × MetaVal)
deriving DecidableEq, Repr, Inhabited

/-! ### Module-level configuration constants (generate_sample_data.py lines 14-27) -/

def NUM_USERS : Nat := 1000
def NUM_DAYS : Nat := 30
def EVENTS_PER_USER_PER_DAY : Int × Int := (1, 20)
def PRODUCTS : List String :=
  ["prod_001", "prod_002", "prod_003", "prod_004", "prod_005",
   "prod_006", "prod_007", "prod_008", "prod_009", "prod_010"]
def CATEGORIES : List String :=
  ["electronics", "clothing", "books", "home", "sports", "beauty", "toys", "food"]
def EVENT_TYPES : List String :=
  ["purchase", "page_view", "signup", "login", "logout", "click", "scroll", "search"]
def PLATFORMS : List String := ["web", "mobile"]
def DEVICE_TYPES : List String := ["desktop", "mobile", "tablet"]
def COUNTRIES : List String := ["US", "CA", "UK", "DE", "FR", "AU", "JP", "BR"]
def SUBSCRIPTION_TIERS : List String := ["basic", "premium", "enterprise"]

/-- Character-level model of Python string slicing `s[:n]`. -/
def pyTake (s : String) (n : Nat) : String := String.mk (s.data.take n)

/-- Character-level model of Python `str.lower()` (the name pools are
ASCII, where the two agree). -/
def pyLower (s : String) : String := String.mk (s.data.map Char.toLower)

/-- `generate_user_id` (line 29-31): prefix of the next uuid4 hex value. -/
def generate_user_id (u : String) : String := "user_" ++ pyTake u 8

/-- `generate_event_id` (line 33-35). -/
def generate_event_id (u : String) : String := "evt_" ++ pyTake u 8

/-- `generate_session_id` (line 37-39). -/
def generate_session_id (u : String) : String := "sess_" ++ pyTake u 8

/-- `generate_email` (lines 41-44). -/
def generate_email (first_name last_name : String) (g : Rng) : String × Rng :=
  let domains := ["gmail.com", "yahoo.com", "hotmail.com", "outlook.com", "company.com"]
  let (d, g) := choice domains g
  (pyLower first_name ++ "." ++ pyLower last_name ++ "@" ++ d, g)

def first_names : List String :=
  ["John", "Jane", "Bob", "Alice", "Charlie", "Diana", "Eve", "Frank", "Grace", "Henry"]
def last_names : List String :=
  ["Smith", "Johnson", "Williams", "Brown", "Jones", "Garcia", "Miller", "Davis",
   "Rodriguez", "Martinez"]
def timezones : List String :=
  ["America/New_York", "America/Los_Angeles", "Europe/London", "Europe/Berlin", "Asia/Tokyo"]

/-- One iteration of the user loop of `generate_user_data`
(generate_sample_data.py lines 52-73), draws in source order. -/
def mkUser (now : Int) (uuid : UuidSrc) (uk : Nat) (g : Rng) : User × Nat × Rng :=
  let (first_name, g) := choice first_names g
  let (last_name, g) := choice last_names g
  let (d, g) := randInt 1 365 g
  let created_at := now - d * 86400
  let uid := generate_user_id (uuid uk)
  let (email, g) := generate_email first_name last_name g
  let (ud, g) := randInt 0 30 g
  let updated_at := created_at + ud * 86400
  let (country, g) := choice COUNTRIES g
  let (tz, g) := choice timezones g
  let (tier, g) := weightedChoice SUBSCRIPTION_TIERS g
  let (src, g) := choice ["organic", "google_ads", "facebook_ads", "referral", "email"] g
  let (camp, g) := choice ["summer_sale", "winter_promo", "new_user", "retention", "upsell"] g
  let r := rngHead g
  let g := rngTail g
  let (refv, g) :=
    if r % 10 < 2 then
      let (rn, g) := randInt 1000 9999 g
      (MetaVal.str ("REF" ++ toString rn), g)
    else (MetaVal.null, g)
  ({ user_id := uid, email := email, created_at := created_at, updated_at := updated_at,
     first_name := first_name, last_name := last_name, country := country, timezone := tz,
     subscription_tier := tier,
     metadata := [("source", MetaVal.str src), ("campaign", MetaVal.str camp),
                  ("referral_code", refv)] },
   uk + 1, g)

/-- `generate_user_data` (generate_sample_data.py lines 46-75), with the
user count `NUM_USERS` made an explicit parameter of the loop
`for i in range(NUM_USERS)`. -/
def generate_user_data (numUsers : Nat) (now : Int) (uuid : UuidSrc) (uk : Nat) (g : Rng) :
    List User × Nat × Rng :=
  match numUsers with
  | 0 => ([], uk, g)
  | n + 1 =>
    let (u, uk, g) := mkUser now uuid uk g
    let (rest, uk, g) := generate_user_data n now uuid uk g
    (u :: rest, uk, g)

/-- Calendar-day extraction `datetime.date()`: floor division by one day. -/
def dateOf (t : Int) : Int := t / 86400

/-- Metadata construction of `generate_event_data`
(generate_sample_data.py lines 105-133), branching on the event type. -/
def mkEventMetadata (event_type : String) (g : Rng) : List (String × MetaVal) × Rng :=
  if event_type = "purchase" then
    let (amt, g) := randInt 10 500 g
    let (cur, g) := choice ["USD", "EUR", "GBP", "CAD"] g
    let (pid, g) := choice PRODUCTS g
    let (cat, g) := choice CATEGORIES g
    ([("amount", MetaVal.num amt), ("currency", MetaVal.str cur),
      ("product_id", MetaVal.str pid), ("category", MetaVal.str cat)], g)
  else if event_type = "page_view" then
    let (pg, g) := choice ["/home", "/products", "/checkout", "/profile", "/search"] g
    let (cat, g) := choice CATEGORIES g
    ([("page", MetaVal.str pg), ("category", MetaVal.str cat)], g)
  else if event_type = "signup" then
    let (src, g) := choice ["google_ads", "facebook_ads", "organic", "referral"] g
    let (camp, g) := choice ["summer_sale", "winter_promo", "new_user"] g
    ([("source", MetaVal.str src), ("campaign", MetaVal.str camp)], g)
  else if event_type = "click" ∨ event_type = "scroll" then
    let (el, g) := choice ["button", "link", "image", "text"] g
    let (pg, g) := choice ["/home", "/products", "/checkout", "/profile"] g
    ([("element", MetaVal.str el), ("page", MetaVal.str pg)], g)
  else if event_type = "search" then
    let (q, g) := choice ["laptop", "shirt", "book", "phone", "shoes"] g
    let (rc, g) := randInt 0 100 g
    ([("query", MetaVal.str q), ("results_count", MetaVal.num rc)], g)
  else ([], g)

/-- One iteration of the inner event loop of `generate_event_data`
(generate_sample_data.py lines 101-147), draws in source order. -/
def mkEvent (user_id session_id : String) (session_start now : Int)
    (uuid : UuidSrc) (uk : Nat) (g : Rng) : Event × Nat × Rng :=
  let (off, g) := randInt 0 120 g
  let event_time := session_start + off * 60
  let (event_type, g) := weightedChoice EVENT_TYPES g
  let (md, g) := mkEventMetadata event_type g
  let eid := generate_event_id (uuid uk)
  let (dev, g) := choice DEVICE_TYPES g
  let (plat, g) := choice PLATFORMS g
  let (v1, g) := randInt 1 3 g
  let (v2, g) := randInt 0 9 g
  let (v3, g) := randInt 0 9 g
  ({ event_id := eid, user_id := user_id, event_type := event_type,
     event_timestamp := event_time, session_id := session_id, device_type := dev,
     platform := plat,
     app_version := toString v1 ++ "." ++ toString v2 ++ "." ++ toString v3,
     metadata := md, created_at := now }, uk + 1, g)

/-- The `for event_num in range(num_events)` loop of `generate_event_data`. -/
def genDayEvents (user_id session_id : String) (session_start now : Int) (count : Nat)
    (uuid : UuidSrc) (uk : Nat) (g : Rng) : List Event × Nat × Rng :=
  match count with
  | 0 => ([], uk, g)
  | n + 1 =>
    let (e, uk, g) := mkEvent user_id session_id session_start now uuid uk g
    let (rest, uk, g) := genDayEvents user_id session_id session_start now n uuid uk g
    (e :: rest, uk, g)

/-- The `for day_offset in range(NUM_DAYS)` loop of `generate_event_data`
(generate_sample_data.py lines 87-147), including the skip of days whose
date is strictly before the user creation date (line 91). -/
def genDays (u : User) (start_date now : Int) (evRange : Int × Int) (uuid : UuidSrc) :
    List Nat → Nat → Rng → List Event × Nat × Rng
  | [], uk, g => ([], uk, g)
  | j :: rest, uk, g =>
    let event_date := start_date + (j : Int) * 86400
    if dateOf event_date < dateOf u.created_at then
      genDays u start_date now evRange uuid rest uk g
    else
      let (numEv, g) := randInt evRange.1 evRange.2 g
      let session_id := generate_session_id (uuid uk)
      let uk := uk + 1
      let (hh, g) := randInt 8 20 g
      let (mm, g) := randInt 0 59 g
      let session_start := event_date + hh * 3600 + mm * 60
      let (evs, uk, g) := genDayEvents u.user_id session_id session_start now numEv.toNat uuid uk g
      let (evs2, uk, g) := genDays u start_date now evRange uuid rest uk g
      (evs ++ evs2, uk, g)

/-- The outer `for user in users` loop of `generate_event_data`. -/
def genUsersEvents (start_date now : Int) (numDays : Nat) (evRange : Int × Int)
    (uuid : UuidSrc) : List User → Nat → Rng → List Event × Nat × Rng
  | [], uk, g => ([], uk, g)
  | u :: rest, uk, g =>
    let (evs, uk, g) := genDays u start_date now evRange uuid (List.range numDays) uk g
    let (evs2, uk, g) := genUsersEvents start_date now numDays evRange uuid rest uk g
    (evs ++ evs2, uk, g)

/-- `generate_event_data` (generate_sample_data.py lines 77-149), with
`NUM_DAYS` and `EVENTS_PER_USER_PER_DAY` made explicit parameters. -/
def generate_event_data (users : List User) (numDays : Nat) (evRange : Int × Int)
    (now : Int) (uuid : UuidSrc) (uk : Nat) (g : Rng) : List Event × Nat × Rng :=
  genUsersEvents (now - (numDays : Int) * 86400) now numDays evRange uuid users uk g

/-! ### Session derivation (generate_sample_data.py lines 151-190)

The `sessions` dict preserves insertion order, so it is modelled as an
association list on which updates rewrite the first (unique) matching key
in place.  The identical fold also appears in simple_data_generator.py
lines 102-137. -/

/-- First-match lookup in the ordered session map. -/
def lookupA : List (String × Session) → String → Option Session
  | [], _ => none
  | (k, v) :: rest, sid => if k = sid then some v else lookupA rest sid

/-- `session_id not in sessions` test (negated). -/
def containsKey (l : List (String × Session)) (sid : String) : Bool :=
  (lookupA l sid).isSome

/-- In-place update of the entry with the given key. -/
def updateAssoc : List (String × Session) → String → (Session → Session) →
    List (String × Session)
  | [], _, _ => []
  | (k, v) :: rest, sid, f =>
    if k = sid then (k, f v) :: rest else (k, v) :: updateAssoc rest sid f

/-- Fresh accumulator for a session id seen for the first time
(generate_sample_data.py lines 160-173). -/
def initSession (e : Event) : Session :=
  { session_id := e.session_id, user_id := e.user_id, started_at := e.event_timestamp,
    ended_at := none, duration_seconds := none, page_views := 0, events_count := 0,
    device_type := e.device_type, platform := e.platform, country := none, metadata := [] }

/-- The per-event mutation of the accumulator (lines 175-181): count the
event, count page views, and push `ended_at` up to the event time when it
is unset or smaller. -/
def updSession (s : Session) (e : Event) : Session :=
  { s with
    events_count := s.events_count + 1,
    page_views := if e.event_type = "page_view" then s.page_views + 1 else s.page_views,
    ended_at :=
      match s.ended_at with
      | none => some e.event_timestamp
      | some t => some (if t < e.event_timestamp then e.event_timestamp else t) }

/-- One iteration of the `for event in events` loop (lines 155-181). -/
def sessStep (acc : List (String × Session)) (e : Event) : List (String × Session) :=
  if containsKey acc e.session_id then
    updateAssoc acc e.session_id (fun s => updSession s e)
  else
    acc ++ [(e.session_id, updSession (initSession e) e)]

/-- Duration computation after the fold (lines 184-188); `ended_at` is an
ISO string in the source, so its truthiness test is `isSome` here. -/
def finalizeSession (s : Session) : Session :=
  match s.ended_at with
  | some t => { s with duration_seconds := some (t - s.started_at) }
  | none => s

/-- `generate_session_data` (generate_sample_data.py lines 151-190). -/
def generate_session_data (events : List Event) : List Session :=
  ((events.foldl sessStep []).map fun kv => finalizeSession kv.2)

/-! ### The simple generator (src/simple_data_generator.py)

`generate_sample_data` there is one function; it is split below into its
user loop, event loop and session fold (the session fold is textually the
same as `generate_session_data` above and is reused).  Its configuration
is hardcoded: 100 users, 1000 events, 30 days. -/

def simple_categories : List String :=
  ["electronics", "clothing", "books", "home", "sports", "beauty"]

/-- Zero-padded decimal formatting `f"{n:0wd}"`. -/
def padZeros (w : Nat) (n : Nat) : String :=
  let s := toString n
  String.mk (List.replicate (w - s.length) '0') ++ s

/-- One iteration of the simple user loop (simple_data_generator.py
lines 32-50); note `updated_at` is drawn from `now`, not from
`created_at`. -/
def simple_mkUser (i : Nat) (now : Int) (g : Rng) : User × Rng :=
  let (cd, g) := randInt 1 365 g
  let (ud, g) := randInt 0 30 g
  let (country, g) := choice COUNTRIES g
  let (tier, g) := choice SUBSCRIPTION_TIERS g
  ({ user_id := "user_" ++ padZeros 4 (i + 1),
     email := "user" ++ toString (i + 1) ++ "@example.com",
     created_at := now - cd * 86400,
     updated_at := now - ud * 86400,
     first_name := "User" ++ toString (i + 1),
     last_name := "Example",
     country := country, timezone := "America/New_York", subscription_tier := tier,
     metadata := [("source", MetaVal.str "sample_data"), ("campaign", MetaVal.str "demo")] },
   g)

/-- The simple user loop, `for i in range(num_users)`. -/
def simple_genUsers : Nat → Nat → Int → Rng → List User × Rng
  | 0, _, _, g => ([], g)
  | n + 1, i, now, g =>
    let (u, g) := simple_mkUser i now g
    let (rest, g) := simple_genUsers n (i + 1) now g
    (u :: rest, g)

/-- One iteration of the simple event loop (simple_data_generator.py
lines 57-98); only purchase, page_view and signup carry metadata. -/
def simple_mkEvent (i : Nat) (user_ids : List String) (now : Int) (g : Rng) :
    Event × Rng :=
  let (uid, g) := choice user_ids g
  let (et, g) := choice EVENT_TYPES g
  let (dd, g) := randInt 0 30 g
  let (hh, g) := randInt 0 23 g
  let (mm, g) := randInt 0 59 g
  let event_time := now - (dd * 86400 + hh * 3600 + mm * 60)
  let (md, g) :=
    if et = "purchase" then
      let (amt, g) := randInt 10 500 g
      let (pn, g) := randInt 1 10 g
      let (cat, g) := choice simple_categories g
      ([("amount", MetaVal.num amt), ("currency", MetaVal.str "USD"),
        ("product_id", MetaVal.str ("prod_" ++ padZeros 3 pn.toNat)),
        ("category", MetaVal.str cat)], g)
    else if et = "page_view" then
      let (pg, g) := choice ["/home", "/products", "/checkout", "/profile", "/search"] g
      let (cat, g) := choice simple_categories g
      ([("page", MetaVal.str pg), ("category", MetaVal.str cat)], g)
    else if et = "signup" then
      let (src, g) := choice ["google_ads", "facebook_ads", "organic", "referral"] g
      let (camp, g) := choice ["summer_sale", "winter_promo", "new_user"] g
      ([("source", MetaVal.str src), ("campaign", MetaVal.str camp)], g)
    else ([], g)
  let (sn, g) := randInt 1 50 g
  let (dev, g) := choice DEVICE_TYPES g
  let (plat, g) := choice PLATFORMS g
  ({ event_id := "evt_" ++ padZeros 6 (i + 1),
     user_id := uid, event_type := et, event_timestamp := event_time,
     session_id := "sess_" ++ padZeros 3 sn.toNat,
     device_type := dev, platform := plat, app_version := "1.0.0",
     metadata := md, created_at := now }, g)

/-- The simple event loop, `for i in range(num_events)`. -/
def simple_genEvents : Nat → Nat → List String → Int → Rng → List Event × Rng
  | 0, _, _, _, g => ([], g)
  | n + 1, i, user_ids, now, g =>
    let (e, g) := simple_mkEvent i user_ids now g
    let (rest, g) := simple_genEvents n (i + 1) user_ids now g
    (e :: rest, g)

/-- `generate_sample_data` of simple_data_generator.py (lines 13-159,
without the CSV output): 100 users, then 1000 events over the user ids,
then the session fold (identical to `generate_session_data`). -/
def simple_generate_sample_data (now : Int) (g : Rng) :
    List User × List Event × List Session :=
  let (users, g) := simple_genUsers 100 0 now g
  let (events, _) := simple_genEvents 1000 0 (users.map User.user_id) now g
  (users, events, generate_session_data events)

/-! ### The metadata schema of the specification

Used for the refinement claim that metadata is a total function of the
event type; stated in the words of the specification. -/

/-- The key set the specification assigns to each event type. -/
def specMetadataKeys (t : String) : List String :=
  if t = "purchase" then ["amount", "currency", "product_id", "category"]
  else if t = "page_view" then ["page", "category"]
  else if t = "signup" then ["source", "campaign"]
  else if t = "click" ∨ t = "scroll" then ["element", "page"]
  else if t = "search" then ["query", "results_count"]
  else []

/-! ### Basic lemmas about the randomness model -/

theorem randInt_le {lo hi : Int} (g : Rng) (h : lo ≤ hi) :
    lo ≤ (randInt lo hi g).1 ∧ (randInt lo hi g).1 ≤ hi := by
  have hpos : 0 < hi - lo + 1 := by omega
  constructor
  · have := Int.emod_nonneg (rngHead g : Int) (by omega : hi - lo + 1 ≠ 0)
    simp only [randInt]
    omega
  · have := Int.emod_lt_of_pos (rngHead g : Int) hpos
    simp only [randInt]
    omega

/-! ### Calendar-day arithmetic -/

theorem dateOf_add_days (t k : Int) : dateOf (t + k * 86400) = dateOf t + k := by
  unfold dateOf
  exact Int.add_mul_ediv_right t k (by norm_num)

theorem dateOf_sub_days (t k : Int) : dateOf (t - k * 86400) = dateOf t - k := by
  have := dateOf_add_days t (-k)
  simpa [sub_eq_add_neg, neg_mul] using this

/-! ### Characterisation of the session fold -/

/-- The running-maximum update performed on `ended_at` by one event. -/
def mmax : Option Int → Int → Option Int
  | none, t => some t
  | some m, t => some (if m < t then t else m)

/-- `ended_at` evolution across a list of events. -/
def endFold (o : Option Int) (l : List Event) : Option Int :=
  l.foldl (fun o e => mmax o e.event_timestamp) o

/-- Plain running maximum of timestamps, seeded with `t`. -/
def endMax (t : Int) (l : List Event) : Int :=
  l.foldl (fun a e => max a e.event_timestamp) t

/-- The accumulator a session id ends up with, when `e` is the first event
carrying it and `rest` are the later ones in encounter order. -/
def buildSession (e : Event) (rest : List Event) : Session :=
  rest.foldl updSession (updSession (initSession e) e)

theorem mmax_some (m t : Int) : mmax (some m) t = some (max m t) := by
  rcases lt_or_le m t with h | h
  · simp [mmax, h, max_eq_right h.le]
  · simp [mmax, not_lt.2 h, max_eq_left h]

theorem mmax_comm (o : Option Int) (a b : Int) :
    mmax (mmax o a) b = mmax (mmax o b) a := by
  cases o with
  | none =>
    show mmax (some a) b = mmax (some b) a
    rw [mmax_some, mmax_some, max_comm]
  | some m =>
    simp only [mmax_some]
    rw [max_assoc, max_comm a b, ← max_assoc]

theorem updSession_ended (s : Session) (e : Event) :
    (updSession s e).ended_at = mmax s.ended_at e.event_timestamp := by
  rcases hs : s.ended_at with _ | t <;> simp [updSession, mmax, hs]

theorem foldl_updSession_started (l : List Event) (s : Session) :
    (l.foldl updSession s).started_at = s.started_at := by
  induction l generalizing s with
  | nil => rfl
  | cons e l ih => exact ih (updSession s e)

theorem foldl_updSession_session_id (l : List Event) (s : Session) :
    (l.foldl updSession s).session_id = s.session_id := by
  induction l generalizing s with
  | nil => rfl
  | cons e l ih => exact ih (updSession s e)

theorem foldl_updSession_user_id (l : List Event) (s : Session) :
    (l.foldl updSession s).user_id = s.user_id := by
  induction l generalizing s with
  | nil => rfl
  | cons e l ih => exact ih (updSession s e)

theorem foldl_updSession_device (l : List Event) (s : Session) :
    (l.foldl updSession s).device_type = s.device_type := by
  induction l generalizing s with
  | nil => rfl
  | cons e l ih => exact ih (updSession s e)

theorem foldl_updSession_platform (l : List Event) (s : Session) :
    (l.foldl updSession s).platform = s.platform := by
  induction l generalizing s with
  | nil => rfl
  | cons e l ih => exact ih (updSession s e)

theorem foldl_updSession_duration (l : List Event) (s : Session) :
    (l.foldl updSession s).duration_seconds = s.duration_seconds := by
  induction l generalizing s with
  | nil => rfl
  | cons e l ih => exact ih (updSession s e)

theorem foldl_updSession_count (l : List Event) (s : Session) :
    (l.foldl updSession s).events_count = s.events_count + l.length := by
  induction l generalizing s with
  | nil => rfl
  | cons e l ih =>
    have := ih (updSession s e)
    simp only [List.foldl_cons] at *
    rw [this]
    simp [updSession]
    omega

theorem foldl_updSession_pv (l : List Event) (s : Session) :
    (l.foldl updSession s).page_views
      = s.page_views + l.countP (fun e => e.event_type == "page_view") := by
  induction l generalizing s with
  | nil => rfl
  | cons e l ih =>
    have := ih (updSession s e)
    simp only [List.foldl_cons] at *
    rw [this, List.countP_cons]
    by_cases h : e.event_type = "page_view" <;> simp [updSession, h] <;> omega

theorem foldl_updSession_ended (l : List Event) (s : Session) :
    (l.foldl updSession s).ended_at = endFold s.ended_at l := by
  induction l generalizing s with
  | nil => rfl
  | cons e l ih =>
    simp only [List.foldl_cons]
    rw [ih (updSession s e)]
    simp [endFold, updSession_ended]

theorem endFold_some (t : Int) (l : List Event) :
    endFold (some t) l = some (endMax t l) := by
  induction l generalizing t with
  | nil => rfl
  | cons e l ih =>
    show endFold (mmax (some t) e.event_timestamp) l = _
    rw [mmax_some, ih]
    rfl

theorem le_endMax (t : Int) (l : List Event) : t ≤ endMax t l := by
  induction l generalizing t with
  | nil => exact le_refl t
  | cons e l ih =>
    exact le_trans (le_max_left t e.event_timestamp) (ih (max t e.event_timestamp))

theorem endFold_perm {l₁ l₂ : List Event} (h : l₁.Perm l₂) :
    ∀ o, endFold o l₁ = endFold o l₂ := by
  induction h with
  | nil => intro o; rfl
  | cons x _ ih => intro o; exact ih (mmax o x.event_timestamp)
  | swap x y l =>
    intro o
    show endFold (mmax (mmax o y.event_timestamp) x.event_timestamp) l
      = endFold (mmax (mmax o x.event_timestamp) y.event_timestamp) l
    rw [mmax_comm]
  | trans _ _ ih₁ ih₂ => intro o; exact (ih₁ o).trans (ih₂ o)

theorem lookupA_updateAssoc_self (l : List (String × Session)) (sid : String)
    (f : Session → Session) :
    lookupA (updateAssoc l sid f) sid = (lookupA l sid).map f := by
  induction l with
  | nil => rfl
  | cons kv rest ih =>
    obtain ⟨k, v⟩ := kv
    by_cases h : k = sid <;> simp [updateAssoc, lookupA, h, ih]

theorem lookupA_updateAssoc_ne (l : List (String × Session)) {sid k : String}
    (f : Session → Session) (h : k ≠ sid) :
    lookupA (updateAssoc l sid f) k = lookupA l k := by
  induction l with
  | nil => rfl
  | cons kv rest ih =>
    obtain ⟨k0, v⟩ := kv
    by_cases h0 : k0 = sid
    · subst h0
      simp [updateAssoc, lookupA, Ne.symm h]
    · by_cases h1 : k0 = k <;> simp [updateAssoc, lookupA, h0, h1, h, ih]

theorem lookupA_append (l₁ l₂ : List (String × Session)) (sid : String) :
    lookupA (l₁ ++ l₂) sid =
      match lookupA l₁ sid with
      | some v => some v
      | none => lookupA l₂ sid := by
  induction l₁ with
  | nil => rfl
  | cons kv rest ih =>
    obtain ⟨k, v⟩ := kv
    by_cases h : k = sid <;> simp [lookupA, h, ih]

theorem lookupA_sessStep (acc : List (String × Session)) (e : Event) (sid : String) :
    lookupA (sessStep acc e) sid =
      if e.session_id = sid then
        match lookupA acc sid with
        | some s => some (updSession s e)
        | none => some (updSession (initSession e) e)
      else lookupA acc sid := by
  by_cases he : e.session_id = sid
  · subst he
    simp only [if_pos rfl]
    cases hc : containsKey acc e.session_id with
    | true =>
      rcases hv : lookupA acc e.session_id with _ | v
      · rw [containsKey, hv] at hc; simp at hc
      · simp [sessStep, containsKey, hv, lookupA_updateAssoc_self]
    | false =>
      rcases hv : lookupA acc e.session_id with _ | v
      · simp [sessStep, containsKey, hv, lookupA_append, lookupA]
      · rw [containsKey, hv] at hc; simp at hc
  · simp only [if_neg he]
    cases hc : containsKey acc e.session_id with
    | true =>
      simp [sessStep, hc,
        lookupA_updateAssoc_ne _ _ (fun h : sid = e.session_id => he h.symm)]
    | false =>
      simp only [sessStep, hc, Bool.false_eq_true, if_false, lookupA_append]
      rcases hv : lookupA acc sid with _ | v <;> simp [lookupA, he]

theorem foldl_sessStep_lookup (es : List Event) :
    ∀ (acc : List (String × Session)) (sid : String),
      lookupA (es.foldl sessStep acc) sid =
        match lookupA acc sid with
        | some s => some ((es.filter fun e2 => e2.session_id == sid).foldl updSession s)
        | none =>
          match es.filter (fun e2 => e2.session_id == sid) with
          | [] => none
          | e :: rest => some (rest.foldl updSession (updSession (initSession e) e)) := by
  induction es with
  | nil =>
    intro acc sid
    simp only [List.foldl_nil, List.filter_nil]
    rcases lookupA acc sid with _ | v <;> rfl
  | cons e es ih =>
    intro acc sid
    simp only [List.foldl_cons]
    rw [ih (sessStep acc e) sid, lookupA_sessStep]
    by_cases he : e.session_id = sid
    · simp only [if_pos he, List.filter_cons, he, beq_self_eq_true, if_pos trivial]
      rcases hv : lookupA acc sid with _ | v <;> simp
    · simp only [if_neg he, List.filter_cons]
      have : (e.session_id == sid) = false := beq_eq_false_iff_ne.2 he
      simp only [this, Bool.false_eq_true, if_false]

theorem map_fst_updateAssoc (l : List (String × Session)) (sid : String)
    (f : Session → Session) :
    (updateAssoc l sid f).map Prod.fst = l.map Prod.fst := by
  induction l with
  | nil => rfl
  | cons kv rest ih =>
    obtain ⟨k, v⟩ := kv
    by_cases h : k = sid <;> simp [updateAssoc, h, ih]

theorem lookupA_eq_none_iff (l : List (String × Session)) (sid : String) :
    lookupA l sid = none ↔ sid ∉ l.map Prod.fst := by
  induction l with
  | nil => simp [lookupA]
  | cons kv rest ih =>
    obtain ⟨k, v⟩ := kv
    by_cases h : k = sid
    · subst h; simp [lookupA]
    · simp only [lookupA, if_neg h, ih, List.map_cons, List.mem_cons]
      constructor
      · intro hn hmem
        rcases hmem with hq | hq
        · exact h hq.symm
        · exact hn hq
      · intro hn hq
        exact hn (Or.inr hq)

theorem nodup_keys_sessStep (acc : List (String × Session)) (e : Event)
    (h : (acc.map Prod.fst).Nodup) : ((sessStep acc e).map Prod.fst).Nodup := by
  cases hc : containsKey acc e.session_id with
  | true => simpa [sessStep, hc, map_fst_updateAssoc] using h
  | false =>
    have hnone : lookupA acc e.session_id = none := by
      rw [containsKey] at hc
      exact Option.not_isSome_iff_eq_none.1 (by simp [hc])
    have hnotin : e.session_id ∉ acc.map Prod.fst := (lookupA_eq_none_iff _ _).1 hnone
    simp only [sessStep, hc, Bool.false_eq_true, if_false, List.map_append]
    simp [List.nodup_append, h, hnotin]

theorem foldl_sessStep_nodup_keys (es : List Event) :
    ∀ acc, (acc.map Prod.fst).Nodup → (((es.foldl sessStep acc)).map Prod.fst).Nodup := by
  induction es with
  | nil => intro acc h; exact h
  | cons e es ih => intro acc h; exact ih (sessStep acc e) (nodup_keys_sessStep acc e h)

theorem lookupA_of_mem_nodup {l : List (String × Session)} {k : String} {v : Session}
    (hnd : (l.map Prod.fst).Nodup) (hm : (k, v) ∈ l) : lookupA l k = some v := by
  induction l with
  | nil => cases hm
  | cons kv rest ih =>
    obtain ⟨k0, v0⟩ := kv
    rcases List.mem_cons.1 hm with h | h
    · injection h with h1 h2
      subst h1; subst h2
      simp [lookupA]
    · have hk : k0 ≠ k := by
        intro hq
        subst hq
        have : k0 ∈ rest.map Prod.fst := List.mem_map.2 ⟨(k0, v), h, rfl⟩
        exact (List.nodup_cons.1 hnd).1 this
      simp only [lookupA, if_neg hk]
      exact ih (List.nodup_cons.1 hnd).2 h

theorem lookupA_some_mem {l : List (String × Session)} {k : String} {v : Session}
    (h : lookupA l k = some v) : (k, v) ∈ l := by
  induction l with
  | nil => simp [lookupA] at h
  | cons kv rest ih =>
    obtain ⟨k0, v0⟩ := kv
    by_cases hk : k0 = k
    · subst hk
      simp [lookupA] at h
      subst h
      exact List.mem_cons_self _ _
    · simp only [lookupA, if_neg hk] at h
      exact List.mem_cons_of_mem _ (ih h)

theorem finalizeSession_fields (s : Session) :
    (finalizeSession s).session_id = s.session_id ∧
    (finalizeSession s).user_id = s.user_id ∧
    (finalizeSession s).started_at = s.started_at ∧
    (finalizeSession s).ended_at = s.ended_at ∧
    (finalizeSession s).events_count = s.events_count ∧
    (finalizeSession s).page_views = s.page_views := by
  rcases hs : s.ended_at with _ | t <;> simp [finalizeSession, hs]

theorem finalizeSession_of_some {s : Session} {t : Int} (h : s.ended_at = some t) :
    finalizeSession s = { s with duration_seconds := some (t - s.started_at) } := by
  simp [finalizeSession, h]

theorem buildSession_session_id (e : Event) (rest : List Event) :
    (buildSession e rest).session_id = e.session_id := by
  simp [buildSession, foldl_updSession_session_id, updSession, initSession]

theorem buildSession_user_id (e : Event) (rest : List Event) :
    (buildSession e rest).user_id = e.user_id := by
  simp [buildSession, foldl_updSession_user_id, updSession, initSession]

theorem buildSession_started (e : Event) (rest : List Event) :
    (buildSession e rest).started_at = e.event_timestamp := by
  simp [buildSession, foldl_updSession_started, updSession, initSession]

theorem buildSession_count (e : Event) (rest : List Event) :
    (buildSession e rest).events_count = rest.length + 1 := by
  rw [buildSession, foldl_updSession_count]
  simp [updSession, initSession]
  omega

theorem buildSession_pv (e : Event) (rest : List Event) :
    (buildSession e rest).page_views
      = (e :: rest).countP (fun e2 => e2.event_type == "page_view") := by
  rw [buildSession, foldl_updSession_pv, List.countP_cons]
  by_cases h : e.event_type = "page_view" <;> simp [updSession, initSession, h] <;> omega

theorem buildSession_ended (e : Event) (rest : List Event) :
    (buildSession e rest).ended_at = some (endMax e.event_timestamp rest) := by
  rw [buildSession, foldl_updSession_ended]
  have h1 : (updSession (initSession e) e).ended_at = some e.event_timestamp := rfl
  rw [h1, endFold_some]

/-- Every output session comes from the nonempty filtered group of its
session id: first event `e` in encounter order, later events `rest`. -/
theorem mem_generate_session_data {es : List Event} {s : Session}
    (hs : s ∈ generate_session_data es) :
    ∃ e rest, es.filter (fun e2 => e2.session_id == s.session_id) = e :: rest ∧
      s = finalizeSession (buildSession e rest) := by
  unfold generate_session_data at hs
  rcases List.mem_map.1 hs with ⟨kv, hkv, hfin⟩
  obtain ⟨k, v⟩ := kv
  have hnd := foldl_sessStep_nodup_keys es [] (by simp)
  have hlook : lookupA (List.foldl sessStep [] es) k = some v :=
    lookupA_of_mem_nodup hnd hkv
  rw [foldl_sessStep_lookup es [] k] at hlook
  simp only [lookupA] at hlook
  rcases hf : es.filter (fun e2 => e2.session_id == k) with _ | ⟨e, rest⟩
  · rw [hf] at hlook
    exact absurd hlook (by simp)
  · rw [hf] at hlook
    simp only [Option.some.injEq] at hlook
    have hv : v = buildSession e rest := hlook.symm
    have hesid : e.session_id = k := by
      have hmem : e ∈ es.filter (fun e2 => e2.session_id == k) := by
        rw [hf]; exact List.mem_cons_self _ _
      simpa using (List.mem_filter.1 hmem).2
    have hssid : s.session_id = k := by
      rw [← hfin, hv, (finalizeSession_fields (buildSession e rest)).1,
        buildSession_session_id, hesid]
    refine ⟨e, rest, ?_, ?_⟩
    · rw [hssid, hf]
    · rw [← hfin, hv]

/-- Conversely, a nonempty filtered group yields exactly its folded,
finalised session record in the output. -/
theorem filter_mem_generate_session_data {es : List Event} {sid : String} {e : Event}
    {rest : List Event}
    (h : es.filter (fun e2 => e2.session_id == sid) = e :: rest) :
    finalizeSession (buildSession e rest) ∈ generate_session_data es := by
  have hlook : lookupA (List.foldl sessStep [] es) sid = some (buildSession e rest) := by
    rw [foldl_sessStep_lookup es [] sid]
    simp only [lookupA]
    rw [h]
    rfl
  unfold generate_session_data
  exact List.mem_map.2 ⟨(sid, buildSession e rest), lookupA_some_mem hlook, rfl⟩

theorem mem_le_endMax {e2 : Event} {l : List Event} (h : e2 ∈ l) (t : Int) :
    e2.event_timestamp ≤ endMax t l := by
  induction l generalizing t with
  | nil => cases h
  | cons e l ih =>
    rcases List.mem_cons.1 h with rfl | h2
    · exact le_trans (le_max_right t e2.event_timestamp)
        (le_endMax (max t e2.event_timestamp) l)
    · exact ih h2 (max t e.event_timestamp)

/-- Shape of every output session: `ended_at` is set, at least
`started_at`, and the duration is their difference in seconds. -/
theorem session_shape {es : List Event} {s : Session} (hs : s ∈ generate_session_data es) :
    ∃ t : Int, s.ended_at = some t ∧ s.started_at ≤ t ∧
      s.duration_seconds = some (t - s.started_at) := by
  rcases mem_generate_session_data hs with ⟨e, rest, hf, hs2⟩
  have hend := buildSession_ended e rest
  have hfin := finalizeSession_of_some hend
  refine ⟨endMax e.event_timestamp rest, ?_, ?_, ?_⟩
  · rw [hs2, hfin]
    exact hend
  · rw [hs2, hfin]
    show (buildSession e rest).started_at ≤ _
    rw [buildSession_started]
    exact le_endMax _ _
  · rw [hs2, hfin]

/-! ### Concrete event lists used by counterexamples and witnesses -/

/-- A minimal event record for concrete tests of the session fold. -/
def demoEvent (sid uid : String) (t : Int) : Event :=
  { event_id := "e", user_id := uid, event_type := "login", event_timestamp := t,
    session_id := sid, device_type := "desktop", platform := "web",
    app_version := "1.0.0", metadata := [], created_at := 0 }

def demoC2 : List Event := [demoEvent "s" "u" 10, demoEvent "s" "u" 5]

def demoC3 : List Event := [demoEvent "s" "u" 10, demoEvent "s" "u" 5]

def demoC4 : List Event := [demoEvent "s4" "u" 100]

def demoC7 : List Event := [demoEvent "s" "u1" 1, demoEvent "s" "u2" 2]

/-! ### Claim C2 -/

/-- C2, as stated, is false: the session fold is not order-independent,
because `started_at` (with `user_id`, `device_type`, `platform`) is taken
from the first event encountered.  Here the permuted list `demoC2.reverse`
yields a session record absent from the original run. -/
theorem claim_C2_counterexample :
    demoC2.reverse.Perm demoC2 ∧
    ¬ (∀ s ∈ generate_session_data demoC2, s ∈ generate_session_data demoC2.reverse) := by
  constructor
  · exact List.reverse_perm demoC2
  · decide

/-- C2 (amended): re-running the fold on the same list is deterministic, and
under any permutation of the input the derived sessions correspond by
session id with equal `ended_at`, `events_count` and `page_views`; only the
first-event-derived fields (`started_at`, `user_id`, `device_type`,
`platform`, hence `duration_seconds`) depend on encounter order. -/
theorem claim_C2_amended (es₁ es₂ : List Event) (hp : es₁.Perm es₂) :
    generate_session_data es₁ = generate_session_data es₁ ∧
    ∀ s₁ ∈ generate_session_data es₁, ∃ s₂ ∈ generate_session_data es₂,
      s₂.session_id = s₁.session_id ∧ s₂.events_count = s₁.events_count ∧
      s₂.page_views = s₁.page_views ∧ s₂.ended_at = s₁.ended_at := by
  refine ⟨rfl, ?_⟩
  intro s₁ hs₁
  rcases mem_generate_session_data hs₁ with ⟨e, rest, hf₁, hs₁eq⟩
  have hpf := hp.filter (fun e2 => e2.session_id == s₁.session_id)
  rw [hf₁] at hpf
  rcases hf₂ : es₂.filter (fun e2 => e2.session_id == s₁.session_id) with _ | ⟨e₂, rest₂⟩
  · rw [hf₂] at hpf
    exact absurd hpf.eq_nil (by simp)
  · rw [hf₂] at hpf
    refine ⟨finalizeSession (buildSession e₂ rest₂),
      filter_mem_generate_session_data hf₂, ?_, ?_, ?_, ?_⟩
    · have he₂ : e₂.session_id = s₁.session_id := by
        have hmem : e₂ ∈ es₂.filter (fun e2 => e2.session_id == s₁.session_id) := by
          rw [hf₂]; exact List.mem_cons_self _ _
        simpa using (List.mem_filter.1 hmem).2
      rw [(finalizeSession_fields _).1, buildSession_session_id, he₂]
    · rw [(finalizeSession_fields _).2.2.2.2.1, buildSession_count, hs₁eq,
        (finalizeSession_fields _).2.2.2.2.1, buildSession_count]
      have := hpf.length_eq
      simp at this
      omega
    · rw [(finalizeSession_fields _).2.2.2.2.2, buildSession_pv, hs₁eq,
        (finalizeSession_fields _).2.2.2.2.2, buildSession_pv]
      exact (hpf.countP_eq _).symm
    · rw [(finalizeSession_fields _).2.2.2.1, buildSession_ended, hs₁eq,
        (finalizeSession_fields _).2.2.2.1, buildSession_ended]
      have h₁ : endFold none (e :: rest) = some (endMax e.event_timestamp rest) := by
        show endFold (some e.event_timestamp) rest = _
        exact endFold_some _ _
      have h₂ : endFold none (e₂ :: rest₂) = some (endMax e₂.event_timestamp rest₂) := by
        show endFold (some e₂.event_timestamp) rest₂ = _
        exact endFold_some _ _
      rw [← h₁, ← h₂, endFold_perm hpf]

/-- Witness for C2 (amended) at a concrete input. -/
theorem claim_C2_amended_witness :
    demoC2.Perm demoC2.reverse ∧
    (generate_session_data demoC2 = generate_session_data demoC2 ∧
      ∀ s₁ ∈ generate_session_data demoC2, ∃ s₂ ∈ generate_session_data demoC2.reverse,
        s₂.session_id = s₁.session_id ∧ s₂.events_count = s₁.events_count ∧
        s₂.page_views = s₁.page_views ∧ s₂.ended_at = s₁.ended_at) :=
  ⟨(List.reverse_perm demoC2).symm,
    claim_C2_amended demoC2 demoC2.reverse (List.reverse_perm demoC2).symm⟩

/-! ### Claim C3 -/

/-- C3, as stated, is false: `started_at` is the timestamp of the first
event encountered with the session id, not the minimum.  In `demoC3` the
events with session id `s` have timestamps `10` then `5`; the derived
session has `started_at = 10`, while the minimum is `5`. -/
theorem claim_C3_counterexample :
    ¬ (∀ s ∈ generate_session_data demoC3, ∀ e ∈ demoC3,
        e.session_id = s.session_id → s.started_at ≤ e.event_timestamp) := by
  decide

/-- C3 (amended): `started_at` equals the timestamp of the first event
encountered (in input order) carrying the session id, and `ended_at`
equals the maximum timestamp over all events carrying it. -/
theorem claim_C3_amended (es : List Event) :
    ∀ s ∈ generate_session_data es,
      ∃ e rest, es.filter (fun e2 => e2.session_id == s.session_id) = e :: rest ∧
        s.started_at = e.event_timestamp ∧
        s.ended_at = some (endMax e.event_timestamp rest) ∧
        (∀ e2 ∈ es, e2.session_id = s.session_id →
          e2.event_timestamp ≤ endMax e.event_timestamp rest) := by
  intro s hs
  rcases mem_generate_session_data hs with ⟨e, rest, hf, hs2⟩
  refine ⟨e, rest, hf, ?_, ?_, ?_⟩
  · rw [hs2, (finalizeSession_fields _).2.2.1, buildSession_started]
  · rw [hs2, (finalizeSession_fields _).2.2.2.1, buildSession_ended]
  · intro e2 he2 hsid
    have hmem : e2 ∈ es.filter (fun e3 => e3.session_id == s.session_id) :=
      List.mem_filter.2 ⟨he2, by simpa using hsid⟩
    rw [hf] at hmem
    rcases List.mem_cons.1 hmem with rfl | hmem2
    · exact le_endMax _ _
    · exact mem_le_endMax hmem2 _

/-- Witness for C3 (amended) at a concrete input. -/
theorem claim_C3_amended_witness :
    (generate_session_data demoC3).headI ∈ generate_session_data demoC3 ∧
    (∃ e rest,
      demoC3.filter
          (fun e2 => e2.session_id == (generate_session_data demoC3).headI.session_id)
        = e :: rest ∧
      (generate_session_data demoC3).headI.started_at = e.event_timestamp ∧
      (generate_session_data demoC3).headI.ended_at
        = some (endMax e.event_timestamp rest) ∧
      (∀ e2 ∈ demoC3,
        e2.session_id = (generate_session_data demoC3).headI.session_id →
        e2.event_timestamp ≤ endMax e.event_timestamp rest)) :=
  ⟨by decide, claim_C3_amended demoC3 _ (by decide)⟩

/-! ### Claim C4 -/

/-- C4: every derived session (each comes from a nonempty group, including
singleton groups like `demoC4`) has `ended_at` set, `ended_at ≥
started_at`, and a non-null `duration_seconds` equal to `ended_at -
started_at` in whole seconds. -/
theorem claim_C4 (es : List Event) :
    ∀ s ∈ generate_session_data es,
      ∃ t : Int, s.ended_at = some t ∧ s.started_at ≤ t ∧
        s.duration_seconds = some (t - s.started_at) :=
  fun _ hs => session_shape hs

/-- Witness for C4 at a concrete one-event input. -/
theorem claim_C4_witness :
    (generate_session_data demoC4).headI ∈ generate_session_data demoC4 ∧
    (∃ t : Int, (generate_session_data demoC4).headI.ended_at = some t ∧
      (generate_session_data demoC4).headI.started_at ≤ t ∧
      (generate_session_data demoC4).headI.duration_seconds
        = some (t - (generate_session_data demoC4).headI.started_at)) :=
  ⟨by decide, claim_C4 demoC4 _ (by decide)⟩

/-! ### Claim C7 -/

/-- C7, as stated, is false: the fold does not enforce that all events of a
session id share one user.  In `demoC7` two events share session `s` with
users `u1` and `u2`; the derived session copies `u1`, and the `u2` event
violates the claimed invariant. -/
theorem claim_C7_counterexample :
    ¬ (∀ s ∈ generate_session_data demoC7, ∀ e ∈ demoC7,
        e.session_id = s.session_id → e.user_id = s.user_id) := by
  decide

/-- C7 (amended): each derived session takes its `user_id` from the first
event encountered with its session id; whenever all events carrying that
session id do share one user, the session belongs to exactly that user. -/
theorem claim_C7_amended (es : List Event) :
    ∀ s ∈ generate_session_data es,
      ∃ e rest, es.filter (fun e2 => e2.session_id == s.session_id) = e :: rest ∧
        s.user_id = e.user_id ∧
        ((∀ e1 ∈ es, ∀ e2 ∈ es, e1.session_id = s.session_id →
            e2.session_id = s.session_id → e1.user_id = e2.user_id) →
          ∀ e2 ∈ es, e2.session_id = s.session_id → e2.user_id = s.user_id) := by
  intro s hs
  rcases mem_generate_session_data hs with ⟨e, rest, hf, hs2⟩
  have huid : s.user_id = e.user_id := by
    rw [hs2, (finalizeSession_fields _).2.1, buildSession_user_id]
  have hemem : e ∈ es ∧ e.session_id = s.session_id := by
    have : e ∈ es.filter (fun e2 => e2.session_id == s.session_id) := by
      rw [hf]; exact List.mem_cons_self _ _
    have h2 := List.mem_filter.1 this
    exact ⟨h2.1, by simpa using h2.2⟩
  refine ⟨e, rest, hf, huid, ?_⟩
  intro hcons e2 he2 hsid
  rw [huid]
  exact hcons e2 he2 e hemem.1 hsid hemem.2

/-- Witness for C7 (amended) at a concrete input. -/
theorem claim_C7_amended_witness :
    (generate_session_data demoC7).headI ∈ generate_session_data demoC7 ∧
    (∃ e rest,
      demoC7.filter
          (fun e2 => e2.session_id == (generate_session_data demoC7).headI.session_id)
        = e :: rest ∧
      (generate_session_data demoC7).headI.user_id = e.user_id ∧
      ((∀ e1 ∈ demoC7, ∀ e2 ∈ demoC7,
          e1.session_id = (generate_session_data demoC7).headI.session_id →
          e2.session_id = (generate_session_data demoC7).headI.session_id →
          e1.user_id = e2.user_id) →
        ∀ e2 ∈ demoC7,
          e2.session_id = (generate_session_data demoC7).headI.session_id →
          e2.user_id = (generate_session_data demoC7).headI.user_id)) :=
  ⟨by decide, claim_C7_amended demoC7 _ (by decide)⟩

/-! ### Shape lemmas for the scripts generator -/

theorem mkUser_created_eq (now : Int) (uuid : UuidSrc) (uk : Nat) (g : Rng) :
    (mkUser now uuid uk g).1.created_at
      = now - (randInt 1 365 (rngTail (rngTail g))).1 * 86400 := rfl

theorem mkUser_updated_eq (now : Int) (uuid : UuidSrc) (uk : Nat) (g : Rng) :
    (mkUser now uuid uk g).1.updated_at
      = (mkUser now uuid uk g).1.created_at
        + (randInt 0 30 (rngTail (rngTail (rngTail (rngTail g))))).1 * 86400 := rfl

theorem mkUser_shape (now : Int) (uuid : UuidSrc) (uk : Nat) (g : Rng) :
    ∃ d k : Int, 1 ≤ d ∧ d ≤ 365 ∧ 0 ≤ k ∧ k ≤ 30 ∧
      (mkUser now uuid uk g).1.created_at = now - d * 86400 ∧
      (mkUser now uuid uk g).1.updated_at = now - d * 86400 + k * 86400 := by
  refine ⟨(randInt 1 365 (rngTail (rngTail g))).1,
    (randInt 0 30 (rngTail (rngTail (rngTail (rngTail g))))).1,
    (randInt_le _ (by norm_num)).1, (randInt_le _ (by norm_num)).2,
    (randInt_le _ (by norm_num)).1, (randInt_le _ (by norm_num)).2,
    mkUser_created_eq now uuid uk g, ?_⟩
  rw [mkUser_updated_eq now uuid uk g, mkUser_created_eq now uuid uk g]

theorem generate_user_data_cons (n : Nat) (now : Int) (uuid : UuidSrc) (uk : Nat)
    (g : Rng) :
    (generate_user_data (n + 1) now uuid uk g).1
      = (mkUser now uuid uk g).1
        :: (generate_user_data n now uuid ((mkUser now uuid uk g).2.1)
              ((mkUser now uuid uk g).2.2)).1 := by
  rcases hm : mkUser now uuid uk g with ⟨u0, uk1, g1⟩
  rcases hr : generate_user_data n now uuid uk1 g1 with ⟨rest, uk2, g2⟩
  simp [generate_user_data, hm, hr]

theorem generate_user_data_shape (numUsers : Nat) (now : Int) (uuid : UuidSrc) :
    ∀ (uk : Nat) (g : Rng), ∀ u ∈ (generate_user_data numUsers now uuid uk g).1,
      ∃ d k : Int, 1 ≤ d ∧ d ≤ 365 ∧ 0 ≤ k ∧ k ≤ 30 ∧
        u.created_at = now - d * 86400 ∧
        u.updated_at = now - d * 86400 + k * 86400 := by
  induction numUsers with
  | zero => intro uk g u hu; simp [generate_user_data] at hu
  | succ n ih =>
    intro uk g u hu
    rw [generate_user_data_cons] at hu
    rcases List.mem_cons.1 hu with rfl | hmem
    · exact mkUser_shape now uuid uk g
    · exact ih _ _ u hmem

/-! ### Shape lemmas for the scripts event generator -/

theorem mkEvent_user_id (uid sid : String) (ss now : Int) (uuid : UuidSrc) (uk : Nat)
    (g : Rng) : (mkEvent uid sid ss now uuid uk g).1.user_id = uid := rfl

theorem mkEvent_session_id (uid sid : String) (ss now : Int) (uuid : UuidSrc) (uk : Nat)
    (g : Rng) : (mkEvent uid sid ss now uuid uk g).1.session_id = sid := rfl

theorem mkEvent_timestamp (uid sid : String) (ss now : Int) (uuid : UuidSrc) (uk : Nat)
    (g : Rng) :
    (mkEvent uid sid ss now uuid uk g).1.event_timestamp
      = ss + (randInt 0 120 g).1 * 60 := rfl

theorem mkEvent_timestamp_ge (uid sid : String) (ss now : Int) (uuid : UuidSrc)
    (uk : Nat) (g : Rng) :
    ss ≤ (mkEvent uid sid ss now uuid uk g).1.event_timestamp := by
  rw [mkEvent_timestamp]
  have h := (randInt_le g (show (0 : Int) ≤ 120 by norm_num)).1
  omega

theorem mkEventMetadata_keys (t : String) (g : Rng) :
    ((mkEventMetadata t g).1).map Prod.fst = specMetadataKeys t := by
  unfold mkEventMetadata specMetadataKeys
  split_ifs <;> simp [choice, randInt]

theorem mkEvent_metadata_keys (uid sid : String) (ss now : Int) (uuid : UuidSrc)
    (uk : Nat) (g : Rng) :
    ((mkEvent uid sid ss now uuid uk g).1.metadata).map Prod.fst
      = specMetadataKeys ((mkEvent uid sid ss now uuid uk g).1.event_type) :=
  mkEventMetadata_keys ((weightedChoice EVENT_TYPES (rngTail g)).1)
    ((weightedChoice EVENT_TYPES (rngTail g)).2)

theorem genDayEvents_cons (uid sid : String) (ss now : Int) (n : Nat) (uuid : UuidSrc)
    (uk : Nat) (g : Rng) :
    (genDayEvents uid sid ss now (n + 1) uuid uk g).1
      = (mkEvent uid sid ss now uuid uk g).1
        :: (genDayEvents uid sid ss now n uuid ((mkEvent uid sid ss now uuid uk g).2.1)
              ((mkEvent uid sid ss now uuid uk g).2.2)).1 := by
  rcases hm : mkEvent uid sid ss now uuid uk g with ⟨e0, uk1, g1⟩
  rcases hr : genDayEvents uid sid ss now n uuid uk1 g1 with ⟨rest, uk2, g2⟩
  simp [genDayEvents, hm, hr]

theorem mem_genDayEvents {uid sid : String} {ss now : Int} {cnt : Nat} {uuid : UuidSrc} :
    ∀ {uk : Nat} {g : Rng} {e : Event},
      e ∈ (genDayEvents uid sid ss now cnt uuid uk g).1 →
      ∃ uk2 g2, e = (mkEvent uid sid ss now uuid uk2 g2).1 := by
  induction cnt with
  | zero => intro uk g e he; simp [genDayEvents] at he
  | succ n ih =>
    intro uk g e he
    rw [genDayEvents_cons] at he
    rcases List.mem_cons.1 he with rfl | hmem
    · exact ⟨uk, g, rfl⟩
    · exact ih hmem

theorem genDayEvents_length (uid sid : String) (ss now : Int) (cnt : Nat)
    (uuid : UuidSrc) :
    ∀ (uk : Nat) (g : Rng), (genDayEvents uid sid ss now cnt uuid uk g).1.length = cnt := by
  induction cnt with
  | zero => intro uk g; rfl
  | succ n ih =>
    intro uk g
    rw [genDayEvents_cons]
    simp [ih]

theorem genDayEvents_sid {uid sid : String} {ss now : Int} {cnt : Nat} {uuid : UuidSrc}
    {uk : Nat} {g : Rng} {e : Event}
    (he : e ∈ (genDayEvents uid sid ss now cnt uuid uk g).1) : e.session_id = sid := by
  rcases mem_genDayEvents he with ⟨uk2, g2, rfl⟩
  exact mkEvent_session_id uid sid ss now uuid uk2 g2

theorem genDays_skip (u : User) (start_date now : Int) (evRange : Int × Int)
    (uuid : UuidSrc) (j : Nat) (rest : List Nat) (uk : Nat) (g : Rng)
    (h : dateOf (start_date + (j : Int) * 86400) < dateOf u.created_at) :
    genDays u start_date now evRange uuid (j :: rest) uk g
      = genDays u start_date now evRange uuid rest uk g := by
  simp [genDays, h]

theorem genDays_keep {u : User} {start_date now : Int} {evRange : Int × Int}
    {uuid : UuidSrc} {j : Nat} {rest : List Nat} {uk : Nat} {g : Rng}
    {numEv hh mm : Int} {g1 g2 g3 g4 g5 : Rng} {uk4 uk5 : Nat}
    {evs evs2 : List Event}
    (h : ¬ dateOf (start_date + (j : Int) * 86400) < dateOf u.created_at)
    (hnum : randInt evRange.1 evRange.2 g = (numEv, g1))
    (hhh : randInt 8 20 g1 = (hh, g2))
    (hmm : randInt 0 59 g2 = (mm, g3))
    (hday : genDayEvents u.user_id (generate_session_id (uuid uk))
        (start_date + (j : Int) * 86400 + hh * 3600 + mm * 60) now
        numEv.toNat uuid (uk + 1) g3 = (evs, uk4, g4))
    (hrest : genDays u start_date now evRange uuid rest uk4 g4 = (evs2, uk5, g5)) :
    genDays u start_date now evRange uuid (j :: rest) uk g = (evs ++ evs2, uk5, g5) := by
  simp only [genDays, if_neg h, hnum, hhh, hmm, hday, hrest]

theorem mem_genDays {u : User} {start_date now : Int} {evRange : Int × Int}
    {uuid : UuidSrc} :
    ∀ {days : List Nat} {uk : Nat} {g : Rng} {e : Event},
      e ∈ (genDays u start_date now evRange uuid days uk g).1 →
      ∃ j ∈ days, ¬ dateOf (start_date + (j : Int) * 86400) < dateOf u.created_at ∧
        ∃ hh mm : Int, 8 ≤ hh ∧ hh ≤ 20 ∧ 0 ≤ mm ∧ mm ≤ 59 ∧
          ∃ (sid : String) (cnt uk2 : Nat) (g2 : Rng),
            e ∈ (genDayEvents u.user_id sid
                (start_date + (j : Int) * 86400 + hh * 3600 + mm * 60) now
                cnt uuid uk2 g2).1 := by
  intro days
  induction days with
  | nil => intro uk g e he; simp [genDays] at he
  | cons j rest ih =>
    intro uk g e he
    by_cases h : dateOf (start_date + (j : Int) * 86400) < dateOf u.created_at
    · rw [genDays_skip _ _ _ _ _ _ _ _ _ h] at he
      rcases ih he with ⟨j2, hj2, hrest⟩
      exact ⟨j2, List.mem_cons_of_mem _ hj2, hrest⟩
    · rcases hnum : randInt evRange.1 evRange.2 g with ⟨numEv, g1⟩
      rcases hhh : randInt 8 20 g1 with ⟨hh, g2⟩
      rcases hmm : randInt 0 59 g2 with ⟨mm, g3⟩
      rcases hday : genDayEvents u.user_id (generate_session_id (uuid uk))
          (start_date + (j : Int) * 86400 + hh * 3600 + mm * 60) now
          numEv.toNat uuid (uk + 1) g3 with ⟨evs, uk4, g4⟩
      rcases hrest : genDays u start_date now evRange uuid rest uk4 g4 with ⟨evs2, uk5, g5⟩
      rw [genDays_keep h hnum hhh hmm hday hrest] at he
      have hb1 := randInt_le g1 (show (8 : Int) ≤ 20 by norm_num)
      have hb2 := randInt_le g2 (show (0 : Int) ≤ 59 by norm_num)
      rw [hhh] at hb1
      rw [hmm] at hb2
      rcases List.mem_append.1 he with hl | hr2
      · refine ⟨j, List.mem_cons_self _ _, h, hh, mm, hb1.1, hb1.2, hb2.1, hb2.2,
          generate_session_id (uuid uk), numEv.toNat, uk + 1, g3, ?_⟩
        rw [hday]
        exact hl
      · have he2 : e ∈ (genDays u start_date now evRange uuid rest uk4 g4).1 := by
          rw [hrest]; exact hr2
        rcases ih he2 with ⟨j2, hj2, hrest2⟩
        exact ⟨j2, List.mem_cons_of_mem _ hj2, hrest2⟩

theorem genDays_length {u : User} {start_date now : Int} {evRange : Int × Int}
    {uuid : UuidSrc} (hle : evRange.1 ≤ evRange.2) :
    ∀ (days : List Nat) (uk : Nat) (g : Rng),
      (genDays u start_date now evRange uuid days uk g).1.length
        ≤ days.length * evRange.2.toNat := by
  intro days
  induction days with
  | nil => intro uk g; simp [genDays]
  | cons j rest ih =>
    intro uk g
    by_cases h : dateOf (start_date + (j : Int) * 86400) < dateOf u.created_at
    · rw [genDays_skip _ _ _ _ _ _ _ _ _ h, List.length_cons, Nat.succ_mul]
      exact le_trans (ih uk g) (Nat.le_add_right _ _)
    · rcases hnum : randInt evRange.1 evRange.2 g with ⟨numEv, g1⟩
      rcases hhh : randInt 8 20 g1 with ⟨hh, g2⟩
      rcases hmm : randInt 0 59 g2 with ⟨mm, g3⟩
      rcases hday : genDayEvents u.user_id (generate_session_id (uuid uk))
          (start_date + (j : Int) * 86400 + hh * 3600 + mm * 60) now
          numEv.toNat uuid (uk + 1) g3 with ⟨evs, uk4, g4⟩
      rcases hrest : genDays u start_date now evRange uuid rest uk4 g4 with ⟨evs2, uk5, g5⟩
      rw [genDays_keep h hnum hhh hmm hday hrest]
      have hlen : evs.length = numEv.toNat := by
        have := genDayEvents_length u.user_id (generate_session_id (uuid uk))
          (start_date + (j : Int) * 86400 + hh * 3600 + mm * 60) now
          numEv.toNat uuid (uk + 1) g3
        rw [hday] at this
        exact this
      have hnumle : numEv ≤ evRange.2 := by
        have := (randInt_le g hle).2
        rw [hnum] at this
        exact this
      have h1 : evs.length ≤ evRange.2.toNat := by
        rw [hlen]; exact Int.toNat_le_toNat hnumle
      have h2 : evs2.length ≤ rest.length * evRange.2.toNat := by
        have := ih uk4 g4
        rw [hrest] at this
        exact this
      simp only [List.length_append, List.length_cons, Nat.succ_mul]
      omega

theorem genDayEvents_sid_subset (uid sid : String) (ss now : Int) (cnt : Nat)
    (uuid : UuidSrc) (uk : Nat) (g : Rng) :
    ((genDayEvents uid sid ss now cnt uuid uk g).1.map Event.session_id).toFinset
      ⊆ {sid} := by
  intro x hx
  rcases List.mem_map.1 (List.mem_toFinset.1 hx) with ⟨e, he, rfl⟩
  simp [genDayEvents_sid he]

theorem genDays_sid_card (u : User) (start_date now : Int) (evRange : Int × Int)
    (uuid : UuidSrc) :
    ∀ (days : List Nat) (uk : Nat) (g : Rng),
      (((genDays u start_date now evRange uuid days uk g).1).map
          Event.session_id).toFinset.card ≤ days.length := by
  intro days
  induction days with
  | nil => intro uk g; simp [genDays]
  | cons j rest ih =>
    intro uk g
    by_cases h : dateOf (start_date + (j : Int) * 86400) < dateOf u.created_at
    · rw [genDays_skip _ _ _ _ _ _ _ _ _ h, List.length_cons]
      exact le_trans (ih uk g) (Nat.le_succ _)
    · rcases hnum : randInt evRange.1 evRange.2 g with ⟨numEv, g1⟩
      rcases hhh : randInt 8 20 g1 with ⟨hh, g2⟩
      rcases hmm : randInt 0 59 g2 with ⟨mm, g3⟩
      rcases hday : genDayEvents u.user_id (generate_session_id (uuid uk))
          (start_date + (j : Int) * 86400 + hh * 3600 + mm * 60) now
          numEv.toNat uuid (uk + 1) g3 with ⟨evs, uk4, g4⟩
      rcases hrest : genDays u start_date now evRange uuid rest uk4 g4 with ⟨evs2, uk5, g5⟩
      rw [genDays_keep h hnum hhh hmm hday hrest]
      have hsub : (evs.map Event.session_id).toFinset
          ⊆ {generate_session_id (uuid uk)} := by
        have := genDayEvents_sid_subset u.user_id (generate_session_id (uuid uk))
          (start_date + (j : Int) * 86400 + hh * 3600 + mm * 60) now
          numEv.toNat uuid (uk + 1) g3
        rw [hday] at this
        exact this
      have h1 : (evs.map Event.session_id).toFinset.card ≤ 1 :=
        le_trans (Finset.card_le_card hsub) (by simp)
      have h2 : ((evs2.map Event.session_id).toFinset.card) ≤ rest.length := by
        have := ih uk4 g4
        rw [hrest] at this
        exact this
      simp only [List.map_append, List.toFinset_append, List.length_cons]
      exact le_trans (Finset.card_union_le _ _) (by omega)

theorem genUsersEvents_cons {start_date now : Int} {numDays : Nat} {evRange : Int × Int}
    {uuid : UuidSrc} {u : User} {users : List User} {uk : Nat} {g : Rng}
    {evs evs2 : List Event} {uk1 uk2 : Nat} {g1 g2 : Rng}
    (h1 : genDays u start_date now evRange uuid (List.range numDays) uk g
      = (evs, uk1, g1))
    (h2 : genUsersEvents start_date now numDays evRange uuid users uk1 g1
      = (evs2, uk2, g2)) :
    genUsersEvents start_date now numDays evRange uuid (u :: users) uk g
      = (evs ++ evs2, uk2, g2) := by
  simp only [genUsersEvents, h1, h2]

theorem mem_genUsersEvents {start_date now : Int} {numDays : Nat} {evRange : Int × Int}
    {uuid : UuidSrc} :
    ∀ {users : List User} {uk : Nat} {g : Rng} {e : Event},
      e ∈ (genUsersEvents start_date now numDays evRange uuid users uk g).1 →
      ∃ u ∈ users, ∃ (uk2 : Nat) (g2 : Rng),
        e ∈ (genDays u start_date now evRange uuid (List.range numDays) uk2 g2).1 := by
  intro users
  induction users with
  | nil => intro uk g e he; simp [genUsersEvents] at he
  | cons u rest ih =>
    intro uk g e he
    rcases h1 : genDays u start_date now evRange uuid (List.range numDays) uk g
      with ⟨evs, uk1, g1⟩
    rcases h2 : genUsersEvents start_date now numDays evRange uuid rest uk1 g1
      with ⟨evs2, uk2, g2⟩
    rw [genUsersEvents_cons h1 h2] at he
    rcases List.mem_append.1 he with hl | hr
    · refine ⟨u, List.mem_cons_self _ _, uk, g, ?_⟩
      rw [h1]
      exact hl
    · have he2 : e ∈ (genUsersEvents start_date now numDays evRange uuid rest uk1 g1).1 := by
        rw [h2]; exact hr
      rcases ih he2 with ⟨u2, hu2, hrest⟩
      exact ⟨u2, List.mem_cons_of_mem _ hu2, hrest⟩

theorem genUsersEvents_length {start_date now : Int} {numDays : Nat}
    {evRange : Int × Int} {uuid : UuidSrc} (hle : evRange.1 ≤ evRange.2) :
    ∀ (users : List User) (uk : Nat) (g : Rng),
      (genUsersEvents start_date now numDays evRange uuid users uk g).1.length
        ≤ users.length * (numDays * evRange.2.toNat) := by
  intro users
  induction users with
  | nil => intro uk g; simp [genUsersEvents]
  | cons u rest ih =>
    intro uk g
    rcases h1 : genDays u start_date now evRange uuid (List.range numDays) uk g
      with ⟨evs, uk1, g1⟩
    rcases h2 : genUsersEvents start_date now numDays evRange uuid rest uk1 g1
      with ⟨evs2, uk2, g2⟩
    rw [genUsersEvents_cons h1 h2]
    have hl1 : evs.length ≤ numDays * evRange.2.toNat := by
      have : (genDays u start_date now evRange uuid (List.range numDays) uk g).1.length
          ≤ (List.range numDays).length * evRange.2.toNat :=
        genDays_length hle (List.range numDays) uk g
      rw [h1, List.length_range] at this
      exact this
    have hl2 : evs2.length ≤ rest.length * (numDays * evRange.2.toNat) := by
      have := ih uk1 g1
      rw [h2] at this
      exact this
    simp only [List.length_append, List.length_cons, Nat.succ_mul]
    omega

theorem genUsersEvents_sid_card {start_date now : Int} {numDays : Nat}
    {evRange : Int × Int} {uuid : UuidSrc} :
    ∀ (users : List User) (uk : Nat) (g : Rng),
      (((genUsersEvents start_date now numDays evRange uuid users uk g).1).map
          Event.session_id).toFinset.card ≤ users.length * numDays := by
  intro users
  induction users with
  | nil => intro uk g; simp [genUsersEvents]
  | cons u rest ih =>
    intro uk g
    rcases h1 : genDays u start_date now evRange uuid (List.range numDays) uk g
      with ⟨evs, uk1, g1⟩
    rcases h2 : genUsersEvents start_date now numDays evRange uuid rest uk1 g1
      with ⟨evs2, uk2, g2⟩
    rw [genUsersEvents_cons h1 h2]
    have hc1 : (evs.map Event.session_id).toFinset.card ≤ numDays := by
      have := genDays_sid_card u start_date now evRange uuid (List.range numDays) uk g
      rw [h1, List.length_range] at this
      exact this
    have hc2 : ((evs2.map Event.session_id).toFinset.card) ≤ rest.length * numDays := by
      have := ih uk1 g1
      rw [h2] at this
      exact this
    simp only [List.map_append, List.toFinset_append, List.length_cons, Nat.succ_mul]
    exact le_trans (Finset.card_union_le _ _) (by omega)

/-- A concrete uuid4 stream for witnesses: distinct 8-character strings. -/
def uuidW : UuidSrc := fun n => padZeros 8 n

theorem generate_user_data_headI (n : Nat) (now : Int) (uuid : UuidSrc) (uk : Nat)
    (g : Rng) :
    (generate_user_data (n + 1) now uuid uk g).1.headI = (mkUser now uuid uk g).1 := by
  rw [generate_user_data_cons]
  rfl

/-! ### Claim C1 -/

/-- C1: every event produced by `generate_event_data` from users produced by
`generate_user_data` (one run, shared clock `now`) has a timestamp at or
after the creation timestamp of its owning user — the day-skip rule plus
the whole-day alignment of both creation times and day starts guarantee
it.  The nodup hypothesis makes the owning user (the user whose user_id
equals the user_id of the event) well defined. -/
theorem claim_C1 (numUsers numDays : Nat) (evRange : Int × Int) (now : Int)
    (uuid : UuidSrc) (uk₁ uk₂ : Nat) (g₁ g₂ : Rng)
    (hnd : (((generate_user_data numUsers now uuid uk₁ g₁).1).map User.user_id).Nodup) :
    ∀ e ∈ (generate_event_data (generate_user_data numUsers now uuid uk₁ g₁).1
        numDays evRange now uuid uk₂ g₂).1,
      ∀ u ∈ (generate_user_data numUsers now uuid uk₁ g₁).1,
        u.user_id = e.user_id → u.created_at ≤ e.event_timestamp := by
  intro e he u hu huid
  rcases mem_genUsersEvents he with ⟨u2, hu2, uk3, g3, hd⟩
  rcases mem_genDays hd with
    ⟨j, hj, hnoskip, hh, mm, h8, h20, hm0, hm59, sid, cnt, uk4, g4, hday⟩
  rcases mem_genDayEvents hday with ⟨uk5, g5, rfl⟩
  have huu : u = u2 :=
    List.inj_on_of_nodup_map hnd hu hu2 (by rw [huid, mkEvent_user_id])
  subst huu
  rcases generate_user_data_shape numUsers now uuid uk₁ g₁ u hu with
    ⟨d, k, hd1, hd365, _, _, hcreated, _⟩
  have hts := mkEvent_timestamp_ge u.user_id sid
    (now - (numDays : Int) * 86400 + (j : Int) * 86400 + hh * 3600 + mm * 60) now
    uuid uk5 g5
  have hdate : dateOf (now - (numDays : Int) * 86400 + (j : Int) * 86400)
      = dateOf now - numDays + j := by
    rw [dateOf_add_days (now - (numDays : Int) * 86400) j, dateOf_sub_days now numDays]
  have hcd : dateOf u.created_at = dateOf now - d := by
    rw [hcreated, dateOf_sub_days]
  rw [hdate, hcd] at hnoskip
  rw [hcreated]
  omega

/-- Witness for C1 at a concrete input with distinct user ids. -/
theorem claim_C1_witness :
    ((((generate_user_data 2 0 uuidW 0 (streamOfList [])).1).map User.user_id).Nodup) ∧
    (∀ e ∈ (generate_event_data (generate_user_data 2 0 uuidW 0 (streamOfList [])).1
        1 (1, 2) 0 uuidW 0 (streamOfList [])).1,
      ∀ u ∈ (generate_user_data 2 0 uuidW 0 (streamOfList [])).1,
        u.user_id = e.user_id → u.created_at ≤ e.event_timestamp) :=
  ⟨by decide,
    claim_C1 2 1 (1, 2) 0 uuidW 0 0 (streamOfList []) (streamOfList []) (by decide)⟩

/-! ### Claim C5 -/

theorem genUsersEvents_zero_days (sd now : Int) (evRange : Int × Int) (uuid : UuidSrc) :
    ∀ (users : List User) (uk : Nat) (g : Rng),
      (genUsersEvents sd now 0 evRange uuid users uk g).1 = [] := by
  intro users
  induction users with
  | nil => intro uk g; rfl
  | cons u rest ih =>
    intro uk g
    have h0 : genDays u sd now evRange uuid (List.range 0) uk g = ([], uk, g) := rfl
    rcases h2 : genUsersEvents sd now 0 evRange uuid rest uk g with ⟨evs2, uk2, g2⟩
    rw [genUsersEvents_cons h0 h2]
    have := ih uk g
    rw [h2] at this
    simpa using this

/-- C5, as stated, is false: the generators perform no configuration
validation.  With a user count of `0`, `generate_user_data` silently
returns the empty list instead of failing with a validation error. -/
theorem claim_C5_counterexample :
    (generate_user_data 0 0 uuidW 0 (streamOfList [])).1 = [] := rfl

/-- C5 (amended): for a non-positive user count, `generate_user_data`
silently returns an empty list, and for a day span of `0`,
`generate_event_data` silently returns an empty event list; no validation
error is raised before or during generation in these cases. -/
theorem claim_C5_amended :
    (∀ (now : Int) (uuid : UuidSrc) (uk : Nat) (g : Rng),
        (generate_user_data 0 now uuid uk g).1 = []) ∧
    (∀ (users : List User) (evRange : Int × Int) (now : Int) (uuid : UuidSrc)
        (uk : Nat) (g : Rng),
        (generate_event_data users 0 evRange now uuid uk g).1 = []) :=
  ⟨fun _ _ _ _ => rfl,
    fun users evRange now uuid uk g =>
      genUsersEvents_zero_days (now - (0 : Nat) * 86400) now evRange uuid users uk g⟩

/-! ### Claim C6 -/

/-- C6, as stated, is false: with the random stream and the configuration
held fixed, two runs started at different wall-clock instants produce
different user records, because creation timestamps are offsets from
`datetime.now()` (and identifiers come from `uuid4`, also outside the
seed). -/
theorem claim_C6_counterexample :
    (generate_user_data 1 86400 uuidW 0 (streamOfList [])).1
      ≠ (generate_user_data 1 0 uuidW 0 (streamOfList [])).1 := by
  intro h
  have h2 := congrArg (fun l => List.headI l |>.created_at) h
  simp only at h2
  rw [generate_user_data_headI, generate_user_data_headI,
    mkUser_created_eq, mkUser_created_eq] at h2
  omega

/-- C6 (amended): a run is a pure function of random stream, configuration,
wall-clock instant, and uuid stream together — but not of seed and
configuration alone: at every seed, shifting the clock by one day shifts
the first created user record by one day, so the outputs differ. -/
theorem claim_C6_amended (numUsers : Nat) (now : Int) (uuid : UuidSrc) (uk : Nat)
    (g : Rng) (h : 0 < numUsers) :
    (generate_user_data numUsers (now + 86400) uuid uk g).1.headI.created_at
        = (generate_user_data numUsers now uuid uk g).1.headI.created_at + 86400 ∧
    (generate_user_data numUsers (now + 86400) uuid uk g).1.headI.created_at
        ≠ (generate_user_data numUsers now uuid uk g).1.headI.created_at := by
  obtain ⟨n, rfl⟩ : ∃ n, numUsers = n + 1 := ⟨numUsers - 1, by omega⟩
  rw [generate_user_data_headI, generate_user_data_headI,
    mkUser_created_eq, mkUser_created_eq]
  constructor
  · ring
  · omega

/-- Witness for C6 (amended) at a concrete input. -/
theorem claim_C6_amended_witness :
    0 < 1 ∧
    ((generate_user_data 1 (0 + 86400) uuidW 0 (streamOfList [])).1.headI.created_at
        = (generate_user_data 1 0 uuidW 0 (streamOfList [])).1.headI.created_at + 86400 ∧
      (generate_user_data 1 (0 + 86400) uuidW 0 (streamOfList [])).1.headI.created_at
        ≠ (generate_user_data 1 0 uuidW 0 (streamOfList [])).1.headI.created_at) :=
  ⟨by decide, claim_C6_amended 1 0 uuidW 0 (streamOfList []) (by decide)⟩

/-! ### Claim C8 -/

/-- C8, as stated over every generated user record, is false:
`simple_data_generator.py` draws `updated_at` independently of
`created_at` (both as offsets from `now`), so a user created one day ago
can carry an update timestamp thirty days ago. -/
theorem claim_C8_counterexample :
    ¬ (∀ u ∈ (simple_generate_sample_data 40000000 (streamOfList [0, 30])).1,
        u.created_at ≤ u.updated_at) := by decide

/-- C8 (amended): for every user record of `generate_user_data`
(scripts/generate_sample_data.py), `created_at` is `now` minus 1-365 days,
`updated_at` equals `created_at` plus 0-30 days, and therefore
`updated_at ≥ created_at`.  (The simple generator does not satisfy this.) -/
theorem claim_C8_amended (numUsers : Nat) (now : Int) (uuid : UuidSrc) (uk : Nat)
    (g : Rng) :
    ∀ u ∈ (generate_user_data numUsers now uuid uk g).1,
      (∃ d : Int, 1 ≤ d ∧ d ≤ 365 ∧ u.created_at = now - d * 86400) ∧
      (∃ k : Int, 0 ≤ k ∧ k ≤ 30 ∧ u.updated_at = u.created_at + k * 86400) ∧
      u.created_at ≤ u.updated_at := by
  intro u hu
  rcases generate_user_data_shape numUsers now uuid uk g u hu with
    ⟨d, k, h1, h2, h3, h4, h5, h6⟩
  refine ⟨⟨d, h1, h2, h5⟩, ⟨k, h3, h4, by rw [h6, h5]⟩, ?_⟩
  rw [h5, h6]
  omega

/-- Witness for C8 (amended) at a concrete input. -/
theorem claim_C8_amended_witness :
    (generate_user_data 1 0 uuidW 0 (streamOfList [])).1.headI
      ∈ (generate_user_data 1 0 uuidW 0 (streamOfList [])).1 ∧
    ((∃ d : Int, 1 ≤ d ∧ d ≤ 365 ∧
        (generate_user_data 1 0 uuidW 0 (streamOfList [])).1.headI.created_at
          = 0 - d * 86400) ∧
      (∃ k : Int, 0 ≤ k ∧ k ≤ 30 ∧
        (generate_user_data 1 0 uuidW 0 (streamOfList [])).1.headI.updated_at
          = (generate_user_data 1 0 uuidW 0 (streamOfList [])).1.headI.created_at
            + k * 86400) ∧
      (generate_user_data 1 0 uuidW 0 (streamOfList [])).1.headI.created_at
        ≤ (generate_user_data 1 0 uuidW 0 (streamOfList [])).1.headI.updated_at) :=
  ⟨by decide, claim_C8_amended 1 0 uuidW 0 (streamOfList []) _ (by decide)⟩

/-! ### Claim C9 -/

/-- C9, as stated over every generated event, is false:
`simple_data_generator.py` only implements the purchase, page_view and
signup metadata branches, so its click events carry an empty metadata map
instead of the claimed `{element, page}` schema. -/
theorem claim_C9_counterexample :
    ¬ (∀ e ∈ (simple_generate_sample_data 40000000
          ⟨fun n => if n = 401 then 5 else 0, 0⟩).2.1,
        e.metadata.map Prod.fst = specMetadataKeys e.event_type) := by decide

/-- C9 (amended): for every event of `generate_event_data`
(scripts/generate_sample_data.py), the metadata key set is the stated
total function of the event type.  (The simple generator implements only
the purchase, page_view and signup branches.) -/
theorem claim_C9_amended (users : List User) (numDays : Nat) (evRange : Int × Int)
    (now : Int) (uuid : UuidSrc) (uk : Nat) (g : Rng) :
    ∀ e ∈ (generate_event_data users numDays evRange now uuid uk g).1,
      e.metadata.map Prod.fst = specMetadataKeys e.event_type := by
  intro e he
  rcases mem_genUsersEvents he with ⟨u, _, uk2, g2, hd⟩
  rcases mem_genDays hd with ⟨j, _, _, hh, mm, _, _, _, _, sid, cnt, uk3, g3, hday⟩
  rcases mem_genDayEvents hday with ⟨uk4, g4, rfl⟩
  exact mkEvent_metadata_keys _ _ _ _ _ _ _

/-- Witness for C9 (amended) at a concrete input. -/
theorem claim_C9_amended_witness :
    (generate_event_data (generate_user_data 1 0 uuidW 0 (streamOfList [])).1 1 (1, 2) 0
        uuidW 0 (streamOfList [])).1.headI
      ∈ (generate_event_data (generate_user_data 1 0 uuidW 0 (streamOfList [])).1 1 (1, 2)
          0 uuidW 0 (streamOfList [])).1 ∧
    ((generate_event_data (generate_user_data 1 0 uuidW 0 (streamOfList [])).1 1 (1, 2) 0
        uuidW 0 (streamOfList [])).1.headI.metadata.map Prod.fst
      = specMetadataKeys
          ((generate_event_data (generate_user_data 1 0 uuidW 0 (streamOfList [])).1 1
              (1, 2) 0 uuidW 0 (streamOfList [])).1.headI.event_type)) :=
  ⟨by decide,
    claim_C9_amended (generate_user_data 1 0 uuidW 0 (streamOfList [])).1 1 (1, 2) 0
      uuidW 0 (streamOfList []) _ (by decide)⟩

/-! ### Claim C10 -/

/-- C10: with `U` users, a `D`-day span and an events range `(lo, hi)` with
`lo ≤ hi`, `generate_event_data` emits at most `U * D * hi` events carrying
at most `U * D` distinct session identifiers, and every session derived
from them has a non-negative duration. -/
theorem claim_C10 (users : List User) (numDays : Nat) (evRange : Int × Int) (now : Int)
    (uuid : UuidSrc) (uk : Nat) (g : Rng) (hle : evRange.1 ≤ evRange.2) :
    (generate_event_data users numDays evRange now uuid uk g).1.length
        ≤ users.length * numDays * evRange.2.toNat ∧
    ((((generate_event_data users numDays evRange now uuid uk g).1).map
        Event.session_id).toFinset.card ≤ users.length * numDays) ∧
    ∀ s ∈ generate_session_data
        (generate_event_data users numDays evRange now uuid uk g).1,
      ∃ dsec : Int, s.duration_seconds = some dsec ∧ 0 ≤ dsec := by
  refine ⟨?_, ?_, ?_⟩
  · have h1 : (genUsersEvents (now - (numDays : Int) * 86400) now numDays evRange uuid
        users uk g).1.length ≤ users.length * (numDays * evRange.2.toNat) :=
      genUsersEvents_length hle users uk g
    rw [mul_assoc]
    exact h1
  · exact genUsersEvents_sid_card users uk g
  · intro s hs
    rcases session_shape hs with ⟨t, _, hle2, hdur⟩
    exact ⟨t - s.started_at, hdur, by omega⟩

/-- Witness for C10 at the example scenario of the specification: 10 users,
7-day span, 1-3 events per user per day. -/
theorem claim_C10_witness :
    ((1 : Int) ≤ 3) ∧
    ((generate_event_data (generate_user_data 10 0 uuidW 0 (streamOfList [])).1 7 (1, 3) 0
        uuidW 0 (streamOfList [])).1.length
        ≤ (generate_user_data 10 0 uuidW 0 (streamOfList [])).1.length * 7 * 3 ∧
      ((((generate_event_data (generate_user_data 10 0 uuidW 0 (streamOfList [])).1 7
            (1, 3) 0 uuidW 0 (streamOfList [])).1).map
          Event.session_id).toFinset.card
        ≤ (generate_user_data 10 0 uuidW 0 (streamOfList [])).1.length * 7) ∧
      ∀ s ∈ generate_session_data
          (generate_event_data (generate_user_data 10 0 uuidW 0 (streamOfList [])).1 7
            (1, 3) 0 uuidW 0 (streamOfList [])).1,
        ∃ dsec : Int, s.duration_seconds = some dsec ∧ 0 ≤ dsec) :=
  ⟨by norm_num,
    claim_C10 (generate_user_data 10 0 uuidW 0 (streamOfList [])).1 7 (1, 3) 0 uuidW 0
      (streamOfList []) (by norm_num)⟩

end DataPlatform
